import Mathlib

/-! Verification of the fortune-cycle and calendrical-derivation engine of the
ni-shi-dou-shu frontend: a shallow embedding of the pure logic in
src/frontend/lib/astrolabe.ts and src/frontend/app/page.tsx, together with
proofs about it. JavaScript strings are modelled as Lean strings, JS numbers
as Int or Nat where the code only ever holds integers, and JS
undefined-or-value fields as Option. -/

namespace NiShiDouShu

/-- Brightness override table NI_SHI_BRIGHTNESS_OVERRIDE from astrolabe.ts:
each star name maps to a table from earthly branch to brightness grade. -/
def NI_SHI_BRIGHTNESS_OVERRIDE : List (String × List (String × String)) :=
  [("太陰",
     [("子", "廟"), ("丑", "廟"), ("寅", "旺"), ("卯", "得"), ("辰", "利"), ("巳", "平"),
      ("午", "不"), ("未", "平"), ("申", "利"), ("酉", "旺"), ("戌", "旺"), ("亥", "廟")]),
   ("太陽",
     [("子", "不"), ("丑", "不"), ("寅", "平"), ("卯", "利"), ("辰", "得"), ("巳", "旺"),
      ("午", "廟"), ("未", "廟"), ("申", "旺"), ("酉", "得"), ("戌", "利"), ("亥", "平")]),
   ("祿存",
     [("子", "廟"), ("丑", "廟"), ("寅", "廟"), ("卯", "廟"), ("辰", "廟"), ("巳", "廟"),
      ("午", "廟"), ("未", "廟"), ("申", "廟"), ("酉", "廟"), ("戌", "廟"), ("亥", "廟")])]

/-- getStarBrightness from astrolabe.ts: if the override table has a (truthy,
i.e. non-empty) entry for the star and branch, return it, otherwise return the
externally supplied brightness unchanged. The JS test
`override && override[earthlyBranch]` is truthy exactly when both lookups
succeed and the looked-up string is non-empty. -/
def getStarBrightness (starName earthlyBranch : String)
    (originalBrightness : Option String) : Option String :=
  match List.lookup starName NI_SHI_BRIGHTNESS_OVERRIDE with
  | some override =>
      match List.lookup earthlyBranch override with
      | some b => if b != "" then some b else originalBrightness
      | none => originalBrightness
  | none => originalBrightness

/-- Combined lookup of a (star, branch) pair in the override table. -/
def tableLookup (starName earthlyBranch : String) : Option String :=
  (List.lookup starName NI_SHI_BRIGHTNESS_OVERRIDE).bind
    (fun override => List.lookup earthlyBranch override)

theorem lookup_mem {α β : Type} [BEq α] {l : List (α × β)} {k : α} {v : β}
    (h : List.lookup k l = some v) : ∃ p, p ∈ l ∧ p.2 = v := by
  induction l with
  | nil => simp [List.lookup] at h
  | cons a t ih =>
    rw [List.lookup] at h
    split at h
    · exact ⟨a, List.mem_cons_self .., Option.some.inj h⟩
    · obtain ⟨p, hp, hv⟩ := ih h
      exact ⟨p, List.mem_cons_of_mem _ hp, hv⟩

theorem tableLookup_ne_empty {star branch b : String}
    (h : tableLookup star branch = some b) : b ≠ "" := by
  unfold tableLookup at h
  cases houter : List.lookup star NI_SHI_BRIGHTNESS_OVERRIDE with
  | none => rw [houter] at h; simp at h
  | some o =>
    rw [houter] at h
    simp only [Option.some_bind] at h
    obtain ⟨po, hpo, hpo2⟩ := lookup_mem houter
    obtain ⟨pb, hpb, hpb2⟩ := lookup_mem h
    have hall : ∀ p ∈ NI_SHI_BRIGHTNESS_OVERRIDE, ∀ q ∈ p.2, q.2 ≠ "" := by decide
    subst hpo2
    subst hpb2
    exact hall po hpo pb hpb

/-- C3: getStarBrightness returns the override table's value whenever the
(star name, branch) pair is present in the table, and otherwise returns the
external brightness unchanged; in particular 太陰 in branch 子 always resolves
to 廟 regardless of the external brightness. -/
theorem getStarBrightness_spec (starName earthlyBranch : String)
    (originalBrightness : Option String) :
    (∀ b, tableLookup starName earthlyBranch = some b →
        getStarBrightness starName earthlyBranch originalBrightness = some b) ∧
    (tableLookup starName earthlyBranch = none →
        getStarBrightness starName earthlyBranch originalBrightness = originalBrightness) ∧
    getStarBrightness "太陰" "子" originalBrightness = some "廟" := by
  refine ⟨?_, ?_, rfl⟩
  · intro b hb
    have hne : b ≠ "" := tableLookup_ne_empty hb
    unfold tableLookup at hb
    unfold getStarBrightness
    cases houter : List.lookup starName NI_SHI_BRIGHTNESS_OVERRIDE with
    | none => rw [houter] at hb; simp at hb
    | some o =>
      rw [houter] at hb
      simp only [Option.some_bind] at hb
      simp [hb, bne_iff_ne, hne]
  · intro hb
    unfold tableLookup at hb
    unfold getStarBrightness
    cases houter : List.lookup starName NI_SHI_BRIGHTNESS_OVERRIDE with
    | none => rfl
    | some o =>
      rw [houter] at hb
      simp only [Option.some_bind] at hb
      simp [hb]

/-- Witness for C3: 太陰 in 子 with external brightness 旺 resolves to 廟. -/
theorem getStarBrightness_spec_witness :
    getStarBrightness "太陰" "子" (some "旺") = some "廟" :=
  (getStarBrightness_spec "太陰" "子" (some "旺")).1 "廟" rfl

/-- Star placement: name, category, optional brightness, optional mutagen. -/
structure StarData where
  name : String
  type : String
  brightness : Option String
  mutagen : Option String
deriving DecidableEq, Repr, Inhabited

/-- Palace as produced by the mapping in calculateAstrolabe. -/
structure PalaceData where
  name : String
  heavenlyStem : String
  earthlyBranch : String
  majorStars : List StarData
  minorStars : List StarData
  adjectiveStars : List StarData
  isBodyPalace : Bool
  isSoulPalace : Bool
deriving DecidableEq, Repr, Inhabited

/-- Palace as supplied by the external iztro engine, restricted to the fields
the mapping in calculateAstrolabe reads. -/
structure InputPalace where
  name : String
  heavenlyStem : String
  earthlyBranch : String
  majorStars : List StarData
  minorStars : List StarData
  adjectiveStars : List StarData
deriving DecidableEq, Repr, Inhabited

/-- Star mapping applied to the major and minor star lists in
calculateAstrolabe: brightness is routed through getStarBrightness with the
palace's branch, while name, type and mutagen are copied. -/
def mapMajorMinorStar (branch : String) (star : StarData) : StarData :=
  { name := star.name, type := star.type,
    brightness := getStarBrightness star.name branch star.brightness,
    mutagen := star.mutagen }

/-- Star mapping applied to the adjective star list in calculateAstrolabe:
only name and type are copied; no brightness or mutagen is carried over. -/
def mapAdjectiveStar (star : StarData) : StarData :=
  { name := star.name, type := star.type, brightness := none, mutagen := none }

/-- Palace mapping from calculateAstrolabe, with the body-palace branch
supplied by the external engine. -/
def mapPalace (bodyPalaceBranch : String) (palace : InputPalace) : PalaceData :=
  { name := palace.name,
    heavenlyStem := palace.heavenlyStem,
    earthlyBranch := palace.earthlyBranch,
    majorStars := palace.majorStars.map (mapMajorMinorStar palace.earthlyBranch),
    minorStars := palace.minorStars.map (mapMajorMinorStar palace.earthlyBranch),
    adjectiveStars := palace.adjectiveStars.map mapAdjectiveStar,
    isBodyPalace := palace.earthlyBranch == bodyPalaceBranch,
    isSoulPalace := palace.name == "命宮" }

/-- C4 counterexample: an adjective star 太陰 with external brightness 旺 in a
palace at branch 子 comes out of the mapping with no brightness at all, while
getStarBrightness at that star and branch would have produced 廟; so adjective
stars are not passed through the brightness correction. -/
theorem mapPalace_adjective_not_corrected :
    (((mapPalace "子"
        { name := "命宮", heavenlyStem := "甲", earthlyBranch := "子",
          majorStars := [], minorStars := [],
          adjectiveStars := [{ name := "太陰", type := "adjective",
                               brightness := some "旺", mutagen := none }] }
      ).adjectiveStars.getD 0 default).brightness = none) ∧
    getStarBrightness "太陰" "子" (some "旺") = some "廟" := by
  refine ⟨rfl, rfl⟩

/-- C4 amended: in the enriched palaces, every major and every minor star has
its brightness routed through getStarBrightness with the palace's branch, but
every adjective star is copied with only its name and type, its brightness
being dropped rather than corrected. -/
theorem mapPalace_brightness (bodyPalaceBranch : String) (palace : InputPalace)
    (i : Nat) :
    ((mapPalace bodyPalaceBranch palace).majorStars[i]? =
      (palace.majorStars[i]?).map (mapMajorMinorStar palace.earthlyBranch)) ∧
    ((mapPalace bodyPalaceBranch palace).minorStars[i]? =
      (palace.minorStars[i]?).map (mapMajorMinorStar palace.earthlyBranch)) ∧
    ((mapPalace bodyPalaceBranch palace).adjectiveStars[i]? =
      (palace.adjectiveStars[i]?).map mapAdjectiveStar) ∧
    (∀ b s, (mapMajorMinorStar b s).brightness =
      getStarBrightness s.name b s.brightness) ∧
    (∀ s, (mapAdjectiveStar s).brightness = none) := by
  refine ⟨?_, ?_, ?_, fun b s => rfl, fun s => rfl⟩ <;>
    simp [mapPalace, List.getElem?_map]

/-- startAgeMap from getStartAge in astrolabe.ts. -/
def startAgeMap : List (String × Nat) :=
  [("水二局", 2), ("木三局", 3), ("金四局", 4), ("土五局", 5), ("火六局", 6)]

/-- getStartAge from astrolabe.ts: `startAgeMap[fiveElementsClass] || 5`.
The JS || treats 0 as falsy, hence the guard on the looked-up number. -/
def getStartAge (fiveElementsClass : String) : Nat :=
  match List.lookup fiveElementsClass startAgeMap with
  | some v => if v != 0 then v else 5
  | none => 5

/-- Canonical forward palace order (palaceOrder in calculateAstrolabe). -/
def palaceOrder : List String :=
  ["命宮", "父母宮", "福德宮", "田宅宮", "官祿宮", "交友宮",
   "遷移宮", "疾厄宮", "財帛宮", "子女宮", "夫妻宮", "兄弟宮"]

/-- Reverse palace order (palaceOrderReverse in calculateAstrolabe). -/
def palaceOrderReverse : List String :=
  ["命宮", "兄弟宮", "夫妻宮", "子女宮", "財帛宮", "疾厄宮",
   "遷移宮", "交友宮", "官祿宮", "田宅宮", "福德宮", "父母宮"]

/-- The five yang heavenly stems (yangStems in calculateAstrolabe). -/
def yangStems : List String := ["甲", "丙", "戊", "庚", "壬"]

/-- Direction decision from calculateAstrolabe: forward for yang-stem-year
males and yin-stem-year females, reverse otherwise. -/
def isForward (yearStem gender : String) : Bool :=
  (yangStems.contains yearStem && (gender == "男")) ||
  (!(yangStems.contains yearStem) && !(gender == "男"))

/-- The palace-name order the decadal loop walks (orderToUse). -/
def orderToUse (yearStem gender : String) : List String :=
  if isForward yearStem gender then palaceOrder else palaceOrderReverse

/-- Decadal fortune record from astrolabe.ts. -/
structure DecadalFortune where
  index : Nat
  heavenlyStem : String
  earthlyBranch : String
  palaceName : String
  startAge : Nat
  endAge : Nat
deriving DecidableEq, Repr, Inhabited

/-- The stem of the first palace with the given name, or the empty string
when there is none (`palace?.heavenlyStem || ''`). -/
def foundStem (palaces : List PalaceData) (palaceName : String) : String :=
  match palaces.find? (fun p => p.name == palaceName) with
  | some p => p.heavenlyStem
  | none => ""

/-- The branch of the first palace with the given name, or the empty string
when there is none (`palace?.earthlyBranch || ''`). -/
def foundBranch (palaces : List PalaceData) (palaceName : String) : String :=
  match palaces.find? (fun p => p.name == palaceName) with
  | some p => p.earthlyBranch
  | none => ""

/-- One iteration of the decadal-fortune loop in calculateAstrolabe, at loop
counter i (0-based; the stored index is 1-based). -/
def mkDecadal (startAge : Nat) (order : List String) (palaces : List PalaceData)
    (i : Nat) : DecadalFortune :=
  { index := i + 1,
    heavenlyStem := foundStem palaces (order.getD i ""),
    earthlyBranch := foundBranch palaces (order.getD i ""),
    palaceName := order.getD i "",
    startAge := startAge + i * 10,
    endAge := startAge + (i + 1) * 10 - 1 }

/-- The full 12-element decadal fortune sequence built in calculateAstrolabe. -/
def decadalFortunes (fiveElementsClass yearStem gender : String)
    (palaces : List PalaceData) : List DecadalFortune :=
  (List.range 12).map
    (mkDecadal (getStartAge fiveElementsClass) (orderToUse yearStem gender) palaces)

/-- Selection of the current decadal period in calculateAstrolabe:
`decadalFortunes.find(d => age >= d.startAge && age <= d.endAge)`. -/
def currentDecadal (fortunes : List DecadalFortune) (age : Nat) :
    Option DecadalFortune :=
  fortunes.find? (fun d => decide (d.startAge ≤ age) && decide (age ≤ d.endAge))

theorem elem_eq_false_of_not_mem {α : Type} [BEq α] [LawfulBEq α]
    {l : List α} {s : α} (h : s ∉ l) : l.elem s = false := by
  cases he : l.elem s
  · rfl
  · exact absurd (List.mem_of_elem_eq_true he) h

theorem decadalFortunes_names (fiveElementsClass yearStem gender : String)
    (palaces : List PalaceData) :
    (decadalFortunes fiveElementsClass yearStem gender palaces).map
        (fun d => d.palaceName) =
      (if isForward yearStem gender then palaceOrder else palaceOrderReverse) := by
  cases hf : isForward yearStem gender <;>
    simp only [decadalFortunes, orderToUse, hf, if_true, if_false, Bool.false_eq_true] <;>
    rfl

/-- C1: the decadal construction walks the canonical forward palace order
exactly for yang-stem-year males and yin-stem-year females and the reverse
order otherwise; the reverse order is the cyclic mirror of the forward order;
and for 木三局 with a yang stem and male gender period 2's palace name is the
second element of the forward order, while with a yin stem and male gender it
is the second element of the reverse order. -/
theorem decadal_direction (fiveElementsClass yearStem gender : String)
    (palaces : List PalaceData) (hg : gender = "男" ∨ gender = "女") :
    (((yearStem ∈ yangStems ∧ gender = "男") ∨
        (yearStem ∉ yangStems ∧ gender = "女")) →
      (decadalFortunes fiveElementsClass yearStem gender palaces).map
          (fun d => d.palaceName) = palaceOrder) ∧
    (((yearStem ∈ yangStems ∧ gender = "女") ∨
        (yearStem ∉ yangStems ∧ gender = "男")) →
      (decadalFortunes fiveElementsClass yearStem gender palaces).map
          (fun d => d.palaceName) = palaceOrderReverse) ∧
    (∀ i, i < 12 →
      palaceOrderReverse.getD i "" = palaceOrder.getD ((12 - i) % 12) "") ∧
    ((decadalFortunes "木三局" "甲" "男" palaces).getD 1 default).palaceName =
      palaceOrder.getD 1 "" ∧
    ((decadalFortunes "木三局" "乙" "男" palaces).getD 1 default).palaceName =
      palaceOrderReverse.getD 1 "" := by
  refine ⟨?_, ?_, ?_, rfl, rfl⟩
  · intro hfwd
    rw [decadalFortunes_names]
    have hf : isForward yearStem gender = true := by
      rcases hfwd with ⟨hy, hm⟩ | ⟨hy, hm⟩ <;> subst hm
      · simp only [isForward, List.contains, List.elem_eq_true_of_mem hy]
        rfl
      · simp only [isForward, List.contains, elem_eq_false_of_not_mem hy]
        rfl
    rw [hf, if_pos rfl]
  · intro hrev
    rw [decadalFortunes_names]
    have hf : isForward yearStem gender = false := by
      rcases hrev with ⟨hy, hm⟩ | ⟨hy, hm⟩ <;> subst hm
      · simp only [isForward, List.contains, List.elem_eq_true_of_mem hy]
        rfl
      · simp only [isForward, List.contains, elem_eq_false_of_not_mem hy]
        rfl
    rw [hf]
    rfl
  · intro i hi
    interval_cases i <;> rfl

/-- Witness for C1: a yang stem (甲) with male gender walks the canonical
forward palace order. -/
theorem decadal_direction_witness :
    (decadalFortunes "木三局" "甲" "男" []).map (fun d => d.palaceName) =
      palaceOrder :=
  (decadal_direction "木三局" "甲" "男" [] (Or.inl rfl)).1
    (Or.inl ⟨by decide, rfl⟩)

/-- C10: every five-element-class string other than the five known classes
gets starting age 5, the same as 土五局, and hence produces exactly the decadal
sequence 土五局 would produce. -/
theorem getStartAge_default (s : String)
    (h1 : s ≠ "水二局") (h2 : s ≠ "木三局") (h3 : s ≠ "金四局")
    (h4 : s ≠ "土五局") (h5 : s ≠ "火六局") :
    getStartAge s = 5 ∧ getStartAge s = getStartAge "土五局" ∧
    ∀ (yearStem gender : String) (palaces : List PalaceData),
      decadalFortunes s yearStem gender palaces =
        decadalFortunes "土五局" yearStem gender palaces := by
  have hnone : List.lookup s startAgeMap = none := by
    simp only [startAgeMap, List.lookup,
      beq_eq_false_iff_ne.mpr h1, beq_eq_false_iff_ne.mpr h2,
      beq_eq_false_iff_ne.mpr h3, beq_eq_false_iff_ne.mpr h4,
      beq_eq_false_iff_ne.mpr h5]
  have h5eq : getStartAge s = 5 := by
    unfold getStartAge
    rw [hnone]
  refine ⟨h5eq, by rw [h5eq]; rfl, ?_⟩
  intro yearStem gender palaces
  unfold decadalFortunes
  rw [h5eq]
  rfl

/-- Witness for C10: the unknown class label 火七局 gets starting age 5. -/
theorem getStartAge_default_witness : getStartAge "火七局" = 5 :=
  (getStartAge_default "火七局" (by decide) (by decide) (by decide) (by decide)
    (by decide)).1

theorem find?_decadal (s : Nat) (o : List String) (ps : List PalaceData)
    (age : Nat) :
    ∀ (n k : Nat),
      ((List.range' k n).map (mkDecadal s o ps)).find?
          (fun d => decide (d.startAge ≤ age) && decide (age ≤ d.endAge)) =
        if s + 10 * k ≤ age ∧ age < s + 10 * (k + n) then
          some (mkDecadal s o ps ((age - s) / 10))
        else none := by
  intro n
  induction n with
  | zero =>
    intro k
    rw [if_neg (by omega)]
    rfl
  | succ m ih =>
    intro k
    rw [List.range'_succ, List.map_cons]
    by_cases hin : s + 10 * k ≤ age ∧ age ≤ s + 10 * k + 9
    · rw [List.find?_cons_of_pos]
      · rw [if_pos (by omega)]
        have hidx : (age - s) / 10 = k := by omega
        rw [hidx]
      · simp only [mkDecadal, Bool.and_eq_true, decide_eq_true_eq]
        constructor <;> omega
    · rw [List.find?_cons_of_neg]
      · rw [ih (k + 1)]
        split_ifs with hc1 hc2 hc2
        · rfl
        · exfalso; omega
        · exfalso; omega
        · rfl
      · simp only [mkDecadal, Bool.and_eq_true, decide_eq_true_eq]
        omega

theorem decadalFortunes_eq_range' (fiveElementsClass yearStem gender : String)
    (palaces : List PalaceData) :
    decadalFortunes fiveElementsClass yearStem gender palaces =
      (List.range' 0 12).map
        (mkDecadal (getStartAge fiveElementsClass) (orderToUse yearStem gender)
          palaces) := by
  rw [decadalFortunes, List.range_eq_range']

/-- C5: currentDecadal returns the unique period whose inclusive age window
contains the given traditional age, and returns none when the age is below
the class's start age or beyond the last period's end age. -/
theorem currentDecadal_spec (fiveElementsClass yearStem gender : String)
    (palaces : List PalaceData) (age : Nat) :
    (∀ d, d ∈ decadalFortunes fiveElementsClass yearStem gender palaces →
        d.startAge ≤ age → age ≤ d.endAge →
        currentDecadal (decadalFortunes fiveElementsClass yearStem gender palaces)
          age = some d) ∧
    (age < getStartAge fiveElementsClass →
        currentDecadal (decadalFortunes fiveElementsClass yearStem gender palaces)
          age = none) ∧
    (getStartAge fiveElementsClass + 119 < age →
        currentDecadal (decadalFortunes fiveElementsClass yearStem gender palaces)
          age = none) := by
  have key := find?_decadal (getStartAge fiveElementsClass)
    (orderToUse yearStem gender) palaces age 12 0
  refine ⟨?_, ?_, ?_⟩
  · intro d hd h1 h2
    rw [decadalFortunes] at hd
    obtain ⟨i, hi, hd⟩ := List.mem_map.mp hd
    have hi12 : i < 12 := List.mem_range.mp hi
    subst hd
    simp only [mkDecadal] at h1 h2
    rw [currentDecadal, decadalFortunes_eq_range', key, if_pos (by omega)]
    have hidx : (age - getStartAge fiveElementsClass) / 10 = i := by omega
    rw [hidx]
  · intro hlt
    rw [currentDecadal, decadalFortunes_eq_range', key, if_neg (by omega)]
  · intro hgt
    rw [currentDecadal, decadalFortunes_eq_range', key, if_neg (by omega)]

/-- Witness for C5: under 水二局 (start age 2), age 5 selects period 1 and
age 1 selects no period. -/
theorem currentDecadal_spec_witness :
    currentDecadal (decadalFortunes "水二局" "甲" "男" []) 5 =
        some ((decadalFortunes "水二局" "甲" "男" []).getD 0 default) ∧
    currentDecadal (decadalFortunes "水二局" "甲" "男" []) 1 = none := by
  constructor
  · exact (currentDecadal_spec "水二局" "甲" "男" [] 5).1
      ((decadalFortunes "水二局" "甲" "男" []).getD 0 default)
      (by decide) (by decide) (by decide)
  · exact (currentDecadal_spec "水二局" "甲" "男" [] 1).2.1 (by decide)

theorem decadalFortunes_getD (fiveElementsClass yearStem gender : String)
    (palaces : List PalaceData) (i : Nat) (h : i < 12) :
    (decadalFortunes fiveElementsClass yearStem gender palaces).getD i default =
      mkDecadal (getStartAge fiveElementsClass) (orderToUse yearStem gender)
        palaces i := by
  interval_cases i <;> rfl

/-- C2: for every class, direction and palace input the decadal construction
returns exactly 12 periods whose inclusive windows are contiguous,
non-overlapping, ten years wide, and jointly cover startAge..startAge+119;
for 水二局 (start age 2) period 1's window is 2..11 and period 12's is
112..121. -/
theorem decadal_windows (fiveElementsClass yearStem gender : String)
    (palaces : List PalaceData) :
    (decadalFortunes fiveElementsClass yearStem gender palaces).length = 12 ∧
    (∀ i, i < 12 →
      ((decadalFortunes fiveElementsClass yearStem gender palaces).getD i
          default).index = i + 1 ∧
      ((decadalFortunes fiveElementsClass yearStem gender palaces).getD i
          default).startAge = getStartAge fiveElementsClass + i * 10 ∧
      ((decadalFortunes fiveElementsClass yearStem gender palaces).getD i
          default).endAge = getStartAge fiveElementsClass + i * 10 + 9) ∧
    (∀ a, getStartAge fiveElementsClass ≤ a →
      a ≤ getStartAge fiveElementsClass + 119 →
      ∃ i, i < 12 ∧
        ((decadalFortunes fiveElementsClass yearStem gender palaces).getD i
            default).startAge ≤ a ∧
        a ≤ ((decadalFortunes fiveElementsClass yearStem gender palaces).getD i
            default).endAge) ∧
    (∀ i j, i < 12 → j < 12 → i ≠ j → ∀ a,
      ((decadalFortunes fiveElementsClass yearStem gender palaces).getD i
          default).startAge ≤ a →
      a ≤ ((decadalFortunes fiveElementsClass yearStem gender palaces).getD i
          default).endAge →
      ¬(((decadalFortunes fiveElementsClass yearStem gender palaces).getD j
            default).startAge ≤ a ∧
        a ≤ ((decadalFortunes fiveElementsClass yearStem gender palaces).getD j
            default).endAge)) ∧
    getStartAge "水二局" = 2 ∧
    ((decadalFortunes "水二局" yearStem gender palaces).getD 0
        default).startAge = 2 ∧
    ((decadalFortunes "水二局" yearStem gender palaces).getD 0
        default).endAge = 11 ∧
    ((decadalFortunes "水二局" yearStem gender palaces).getD 11
        default).startAge = 112 ∧
    ((decadalFortunes "水二局" yearStem gender palaces).getD 11
        default).endAge = 121 := by
  refine ⟨?_, ?_, ?_, ?_, rfl, rfl, rfl, rfl, rfl⟩
  · simp [decadalFortunes]
  · intro i hi
    rw [decadalFortunes_getD fiveElementsClass yearStem gender palaces i hi]
    refine ⟨rfl, rfl, ?_⟩
    simp only [mkDecadal]
    omega
  · intro a ha1 ha2
    refine ⟨(a - getStartAge fiveElementsClass) / 10, by omega, ?_, ?_⟩ <;>
      rw [decadalFortunes_getD fiveElementsClass yearStem gender palaces _
        (by omega)] <;>
      simp only [mkDecadal] <;> omega
  · intro i j hi hj hij a h1 h2
    rw [decadalFortunes_getD fiveElementsClass yearStem gender palaces i hi]
      at h1 h2
    rw [decadalFortunes_getD fiveElementsClass yearStem gender palaces j hj]
    simp only [mkDecadal] at h1 h2 ⊢
    omega

/-- Witness for C2 at 水二局: 12 periods, and period 1's window starts at
age 2. -/
theorem decadal_windows_witness :
    (decadalFortunes "水二局" "甲" "男" []).length = 12 ∧
    ((decadalFortunes "水二局" "甲" "男" []).getD 0 default).startAge = 2 := by
  constructor
  · exact (decadal_windows "水二局" "甲" "男" []).1
  · exact ((decadal_windows "水二局" "甲" "男" []).2.1 0 (by decide)).2.1

/-- calculateAge from astrolabe.ts, with the wall-clock date the code reads
from `new Date()` passed in explicitly as currentYear/currentMonth/currentDay.
Returns the pair (realAge, age), i.e. (calendar age, traditional age). -/
def calculateAge (birthYear birthMonth birthDay currentYear currentMonth
    currentDay : Int) : Int × Int :=
  let realAge0 := currentYear - birthYear
  let realAge :=
    if currentMonth < birthMonth ∨
        (currentMonth = birthMonth ∧ currentDay < birthDay) then
      realAge0 - 1
    else realAge0
  let age := realAge + 1
  (max 0 realAge, max 1 age)

/-- C7: the calendar age is the year difference, decremented when the current
month/day pair is lexicographically before the birth month/day pair and
floored at 0; the traditional age is the calendar age plus one (equivalently,
that sum floored at 1, the floor never binding); and a birth date equal to
today gives calendar age 0 and traditional age 1. -/
theorem calculateAge_spec (birthYear birthMonth birthDay currentYear
    currentMonth currentDay : Int) :
    ((calculateAge birthYear birthMonth birthDay currentYear currentMonth
        currentDay).1 =
      max 0 (currentYear - birthYear -
        (if currentMonth < birthMonth ∨
            (currentMonth = birthMonth ∧ currentDay < birthDay) then 1
          else 0))) ∧
    ((calculateAge birthYear birthMonth birthDay currentYear currentMonth
        currentDay).2 =
      (calculateAge birthYear birthMonth birthDay currentYear currentMonth
        currentDay).1 + 1) ∧
    ((calculateAge birthYear birthMonth birthDay currentYear currentMonth
        currentDay).2 =
      max 1 ((calculateAge birthYear birthMonth birthDay currentYear
        currentMonth currentDay).1 + 1)) ∧
    calculateAge birthYear birthMonth birthDay birthYear birthMonth birthDay =
      (0, 1) := by
  refine ⟨?_, ?_, ?_, ?_⟩ <;> simp only [calculateAge] <;> split_ifs <;>
    first
      | omega
      | (simp only [Prod.mk.injEq]; omega)

/-- The ten heavenly stems, in canonical order; these are exactly the keys of
the origin mapping in page.tsx. -/
def heavenlyStems : List String :=
  ["甲", "乙", "丙", "丁", "戊", "己", "庚", "辛", "壬", "癸"]

/-- originMapping from calculateOriginPalace in page.tsx: birth-year stem to
origin branch. -/
def originMapping : List (String × String) :=
  [("甲", "戌"), ("乙", "酉"), ("丙", "申"), ("丁", "未"), ("戊", "午"),
   ("己", "巳"), ("庚", "辰"), ("辛", "卯"), ("壬", "寅"), ("癸", "亥")]

/-- calculateOriginPalace from page.tsx: map the stem through originMapping
(JS `|| '子'` fallback), then look up the first palace bound to that branch,
falling back to the literal life-palace name. -/
def calculateOriginPalace (yearStem : String) (palaces : List PalaceData) :
    String × String :=
  let branch :=
    match List.lookup yearStem originMapping with
    | some b => if b != "" then b else "子"
    | none => "子"
  let targetPalace := palaces.find? (fun p => p.earthlyBranch == branch)
  let palace :=
    match targetPalace with
    | some p => p.name
    | none => "命宮"
  (branch, palace)

theorem find?_branch_nodup {l : List PalaceData} {b : String}
    (hn : (l.map (fun p => p.earthlyBranch)).Nodup) {p : PalaceData}
    (hp : p ∈ l) (hb : p.earthlyBranch = b) :
    l.find? (fun q => q.earthlyBranch == b) = some p := by
  induction l with
  | nil => simp at hp
  | cons q t ih =>
    rw [List.map_cons, List.nodup_cons] at hn
    rcases List.mem_cons.mp hp with hpq | hpt
    · subst hpq
      exact List.find?_cons_of_pos t (by simp [hb])
    · have hqb : (q.earthlyBranch == b) = false := by
        rw [beq_eq_false_iff_ne]
        intro hqeq
        exact hn.1 (hqeq ▸ hb ▸ List.mem_map_of_mem (fun r => r.earthlyBranch) hpt)
      rw [List.find?_cons_of_neg t (by simp [hqb])]
      exact ih hn.2 hpt

theorem originPalace_snd_of_found (yearStem : String)
    (palaces : List PalaceData)
    (hnodup : (palaces.map (fun p => p.earthlyBranch)).Nodup)
    (p : PalaceData) (hp : p ∈ palaces)
    (hbranch : p.earthlyBranch = (calculateOriginPalace yearStem palaces).1) :
    (calculateOriginPalace yearStem palaces).2 = p.name := by
  simp only [calculateOriginPalace] at hbranch ⊢
  rw [find?_branch_nodup hnodup hp hbranch]

/-- C6: the origin mapping is total over the ten stems; a missing stem falls
back to branch 子; the returned branch is the table's value for the stem; the
returned palace name is the name of the palace bound to that branch when one
exists (unique under distinct branches) and 命宮 otherwise; stem 甲 yields
branch 戌, and with a palace bound to 戌 named 父母宮 the result is
(戌, 父母宮). -/
theorem calculateOriginPalace_spec (yearStem : String)
    (palaces : List PalaceData) :
    (∀ s, s ∈ heavenlyStems → (List.lookup s originMapping).isSome = true) ∧
    (List.lookup yearStem originMapping = none →
      (calculateOriginPalace yearStem palaces).1 = "子") ∧
    (∀ b, List.lookup yearStem originMapping = some b →
      (calculateOriginPalace yearStem palaces).1 = b) ∧
    ((palaces.map (fun p => p.earthlyBranch)).Nodup →
      ∀ p ∈ palaces,
        p.earthlyBranch = (calculateOriginPalace yearStem palaces).1 →
        (calculateOriginPalace yearStem palaces).2 = p.name) ∧
    ((∀ p ∈ palaces,
        p.earthlyBranch ≠ (calculateOriginPalace yearStem palaces).1) →
      (calculateOriginPalace yearStem palaces).2 = "命宮") ∧
    (calculateOriginPalace "甲" palaces).1 = "戌" ∧
    ((palaces.map (fun p => p.earthlyBranch)).Nodup →
      ∀ p ∈ palaces, p.earthlyBranch = "戌" → p.name = "父母宮" →
        calculateOriginPalace "甲" palaces = ("戌", "父母宮")) := by
  refine ⟨by decide, ?_, ?_, ?_, ?_, rfl, ?_⟩
  · intro hnone
    simp only [calculateOriginPalace, hnone]
  · intro b hb
    have hbe : b ≠ "" := by
      obtain ⟨p, hp, hp2⟩ := lookup_mem hb
      have : ∀ p ∈ originMapping, p.2 ≠ "" := by decide
      exact hp2 ▸ this p hp
    simp only [calculateOriginPalace, hb, bne_iff_ne, ne_eq, hbe,
      not_false_eq_true, if_true]
  · intro hnodup p hp hbranch
    exact originPalace_snd_of_found yearStem palaces hnodup p hp hbranch
  · intro hnone
    simp only [calculateOriginPalace] at hnone ⊢
    rw [List.find?_eq_none.mpr]
    intro q hq
    simp only [beq_eq_false_iff_ne, ne_eq, Bool.not_eq_true, beq_iff_eq]
    exact hnone q hq
  · intro hnodup p hp hbranch hname
    have h1 : (calculateOriginPalace "甲" palaces).1 = "戌" := rfl
    have h2 : (calculateOriginPalace "甲" palaces).2 = p.name :=
      originPalace_snd_of_found "甲" palaces hnodup p hp (hbranch.trans h1.symm)
    rw [← h1, ← hname, ← h2]

/-- Witness for C6: with the single palace 父母宮 bound to 戌, stem 甲
resolves to (戌, 父母宮). -/
theorem calculateOriginPalace_spec_witness :
    calculateOriginPalace "甲"
        [{ name := "父母宮", heavenlyStem := "甲", earthlyBranch := "戌",
           majorStars := [], minorStars := [], adjectiveStars := [],
           isBodyPalace := false, isSoulPalace := false }] =
      ("戌", "父母宮") :=
  (calculateOriginPalace_spec "甲"
      [{ name := "父母宮", heavenlyStem := "甲", earthlyBranch := "戌",
         majorStars := [], minorStars := [], adjectiveStars := [],
         isBodyPalace := false, isSoulPalace := false }]).2.2.2.2.2.2
    (by decide) _ (List.mem_singleton.mpr rfl) rfl rfl

/-- The fixed ring of 12 earthly branches (earthlyBranches in
calculateAstrolabe). -/
def earthlyBranches : List String :=
  ["子", "丑", "寅", "卯", "辰", "巳", "午", "未", "申", "酉", "戌", "亥"]

/-- Helper for jsIndexOf, carrying the position of the list head. -/
def jsIndexOfFrom (l : List String) (s : String) (k : Int) : Int :=
  match l with
  | [] => -1
  | a :: t => if a == s then k else jsIndexOfFrom t s (k + 1)

/-- JS Array.prototype.indexOf: the position of the first occurrence, or -1
when the element is absent. -/
def jsIndexOf (l : List String) (s : String) : Int := jsIndexOfFrom l s 0

/-- JS array subscripting: the element at the index, or undefined (none) when
the index is negative or past the end. -/
def jsGet (l : List String) (i : Int) : Option String :=
  if 0 ≤ i then l.get? i.toNat else none

/-- JS String.prototype.charAt on a string modelled as its character list:
a one-character string, or the empty string outside bounds. -/
def jsCharAt (s : List Char) (i : Nat) : String :=
  match s.get? i with
  | some c => String.singleton c
  | none => ""

/-- birthYearBranch in calculateAstrolabe:
`astrolabe.chineseDate?.charAt(1) || '子'`. The fallback 子 is taken when the
chinese date string is absent or its charAt(1) is the (falsy) empty string. -/
def birthYearBranch (chineseDate : Option (List Char)) : String :=
  match chineseDate with
  | some s => if jsCharAt s 1 != "" then jsCharAt s 1 else "子"
  | none => "子"

/-- birthBranchIndex in calculateAstrolabe:
`earthlyBranches.indexOf(birthYearBranch)`. -/
def birthBranchIndex (chineseDate : Option (List Char)) : Int :=
  jsIndexOf earthlyBranches (birthYearBranch chineseDate)

/-- currentYearBranchIndex in calculateAstrolabe:
`(birthBranchIndex + yearDiff) % 12` with the truncating JS remainder. -/
def currentYearBranchIndex (chineseDate : Option (List Char))
    (yearDiff : Int) : Int :=
  Int.tmod (birthBranchIndex chineseDate + yearDiff) 12

/-- Yearly fortune record from astrolabe.ts. The earthlyBranch field holds
the JS value `earthlyBranches[currentYearBranchIndex]`, which is undefined
(none) when the index is out of range. -/
structure YearlyFortune where
  year : Int
  heavenlyStem : String
  earthlyBranch : Option String
  palaceName : String
  age : Int
deriving DecidableEq, Repr, Inhabited

/-- currentYearly construction in calculateAstrolabe, with the wall-clock
year passed in explicitly as currentYear. -/
def currentYearly (chineseDate : Option (List Char))
    (birthYear currentYear : Int) (palaces : List PalaceData) (age : Int) :
    YearlyFortune :=
  let idx := currentYearBranchIndex chineseDate (currentYear - birthYear)
  let branch := jsGet earthlyBranches idx
  let yearlyPalace := palaces.find? (fun p => some p.earthlyBranch == branch)
  { year := currentYear,
    heavenlyStem :=
      (match yearlyPalace with
        | some p => p.heavenlyStem
        | none => ""),
    earthlyBranch := branch,
    palaceName :=
      (match yearlyPalace with
        | some p => p.name
        | none => ""),
    age := age }

theorem jsIndexOfFrom_not_mem {l : List String} {s : String} (h : s ∉ l) :
    ∀ k, jsIndexOfFrom l s k = -1 := by
  induction l with
  | nil => intro k; rfl
  | cons a t ih =>
    intro k
    rw [jsIndexOfFrom]
    rw [if_neg]
    · exact ih (fun hm => h (List.mem_cons_of_mem a hm)) (k + 1)
    · intro hc
      exact h (beq_iff_eq.mp hc ▸ List.mem_cons_self a t)

theorem branch_roundtrip {b : String} (h : b ∈ earthlyBranches) :
    jsGet earthlyBranches (Int.tmod (jsIndexOf earthlyBranches b) 12) =
      some b := by
  simp only [earthlyBranches, List.mem_cons, List.not_mem_nil, or_false] at h
  rcases h with h | h | h | h | h | h | h | h | h | h | h | h <;> subst h <;> rfl

/-- C8 counterexample: with birth branch 子 and year offset -1 (a target year
one before the birth year) the truncating JS remainder makes the target
branch index -1, which is negative. -/
theorem currentYearBranchIndex_negative :
    currentYearBranchIndex (some ['甲', '子']) (-1) = -1 ∧
    ¬(0 ≤ currentYearBranchIndex (some ['甲', '子']) (-1)) := by
  refine ⟨rfl, by decide⟩

theorem jsIndexOf_nonneg_of_mem {b : String} (h : b ∈ earthlyBranches) :
    0 ≤ jsIndexOf earthlyBranches b := by
  simp only [earthlyBranches, List.mem_cons, List.not_mem_nil, or_false] at h
  rcases h with h | h | h | h | h | h | h | h | h | h | h | h <;> subst h <;>
    decide

/-- C8 amended: the target branch index is non-negative whenever the birth
branch index plus the year offset is non-negative — in particular for every
non-negative offset when the birth branch is one of the 12 branches — and at
offset 0 with a valid birth branch the resolved yearly period's branch equals
the birth-year branch exactly. (It is not non-negative for every integer
offset: branch 子 with offset -1 yields index -1.) -/
theorem currentYearBranchIndex_spec (chineseDate : Option (List Char))
    (yearDiff : Int) :
    (0 ≤ birthBranchIndex chineseDate + yearDiff →
      0 ≤ currentYearBranchIndex chineseDate yearDiff) ∧
    (birthYearBranch chineseDate ∈ earthlyBranches → 0 ≤ yearDiff →
      0 ≤ currentYearBranchIndex chineseDate yearDiff) ∧
    (birthYearBranch chineseDate ∈ earthlyBranches →
      ∀ (birthYear : Int) (palaces : List PalaceData) (age : Int),
        (currentYearly chineseDate birthYear birthYear palaces
            age).earthlyBranch =
          some (birthYearBranch chineseDate)) := by
  refine ⟨?_, ?_, ?_⟩
  · intro h
    exact Int.tmod_nonneg 12 h
  · intro hmem hyd
    have hidx : 0 ≤ birthBranchIndex chineseDate :=
      jsIndexOf_nonneg_of_mem hmem
    exact Int.tmod_nonneg 12 (by omega)
  · intro hmem birthYear palaces age
    simp only [currentYearly]
    rw [sub_self]
    simp only [currentYearBranchIndex, birthBranchIndex, add_zero]
    exact branch_roundtrip hmem

/-- Witness for C8: birth branch 亥 with offset 5 has a non-negative index
both by the sum criterion and by the valid-branch criterion, and in the birth
year itself the yearly branch is 子 again for birth branch 子. -/
theorem currentYearBranchIndex_spec_witness :
    (0 ≤ currentYearBranchIndex (some ['甲', '亥']) 5) ∧
    (0 ≤ currentYearBranchIndex (some ['辛', '亥']) 5) ∧
    (currentYearly (some ['甲', '子']) 1990 1990 [] 1).earthlyBranch =
      some "子" := by
  refine ⟨?_, ?_, ?_⟩
  · exact (currentYearBranchIndex_spec (some ['甲', '亥']) 5).1 (by decide)
  · exact (currentYearBranchIndex_spec (some ['辛', '亥']) 5).2.1 (by decide)
      (by decide)
  · exact (currentYearBranchIndex_spec (some ['甲', '子']) 0).2.2 (by decide)
      1990 [] 1

/-- C9 counterexample: a chinese date whose second character 乾 is not one of
the 12 branches gives birth branch index -1, not the claimed default index 0
of branch 子. -/
theorem birthBranchIndex_not_defaulted :
    birthBranchIndex (some ['甲', '乾']) = -1 ∧
    birthBranchIndex (some ['甲', '乾']) ≠ 0 := by
  refine ⟨rfl, by decide⟩

/-- C9 amended: the branch defaults to 子 (index 0) only when the chinese
date is absent or too short to have a second character; a present second
character that is not one of the 12 branches makes indexOf return -1, so
resolution proceeds with index -1 rather than as branch 子. -/
theorem birthBranchIndex_fallback (chineseDate : Option (List Char)) :
    (chineseDate = none →
      birthYearBranch chineseDate = "子" ∧ birthBranchIndex chineseDate = 0) ∧
    (∀ s, chineseDate = some s → s.length ≤ 1 →
      birthYearBranch chineseDate = "子" ∧ birthBranchIndex chineseDate = 0) ∧
    (∀ s c, chineseDate = some s → s.get? 1 = some c →
      String.singleton c ∉ earthlyBranches →
      birthBranchIndex chineseDate = -1) := by
  refine ⟨?_, ?_, ?_⟩
  · rintro rfl
    exact ⟨rfl, rfl⟩
  · rintro s rfl hlen
    have hget : s.get? 1 = none := by
      rw [List.get?_eq_none]
      omega
    have hchar : jsCharAt s 1 = "" := by
      simp only [jsCharAt, hget]
    have hb : birthYearBranch (some s) = "子" := by
      simp [birthYearBranch, hchar]
    refine ⟨hb, ?_⟩
    rw [birthBranchIndex, hb]
    rfl
  · rintro s c rfl hget hmem
    have hchar : jsCharAt s 1 = String.singleton c := by
      simp only [jsCharAt, hget]
    have hne : String.singleton c ≠ "" := by
      intro hc
      have hdata : ([c] : List Char) = [] := congrArg String.data hc
      simp at hdata
    have hb : birthYearBranch (some s) = String.singleton c := by
      simp [birthYearBranch, hchar, bne_iff_ne, hne]
    rw [birthBranchIndex, hb]
    exact jsIndexOfFrom_not_mem hmem 0

/-- Witness for C9: an absent chinese date defaults to branch 子, index 0. -/
theorem birthBranchIndex_fallback_witness :
    birthYearBranch none = "子" ∧ birthBranchIndex none = 0 :=
  (birthBranchIndex_fallback none).1 rfl

end NiShiDouShu
